import Mathlib

/-! Verification of the rock-paper-scissors tournament server (src/app.py).

The Python module keeps a global LEADERBOARD dictionary of player records, a
global GAME_STATE dictionary for the single active session, and exposes Flask
routes over them.  Here the state is passed explicitly: dictionaries become
insertion-ordered association lists (CPython dicts preserve insertion order),
JSON responses become Except/inductive results, and every call into the
random module is replaced by an oracle argument (Rng) supplying the value the
corresponding random.* call would return.  Timestamps produced by
datetime.now().isoformat() and freshly generated uuid4 strings are likewise
explicit arguments.  The float arithmetic on confidences is modelled exactly
over the rationals. -/

inductive Move where
  | rock
  | paper
  | scissors
deriving DecidableEq, Repr

/-- RPS_RULES[m]["beats"] (app.py lines 86-90). -/
def Move.beats : Move → Move
  | .rock => .scissors
  | .paper => .rock
  | .scissors => .paper

/-- COUNTER_MOVES (lines 93-97): what beats each choice. -/
def COUNTER_MOVES : Move → Move
  | .rock => .paper
  | .paper => .scissors
  | .scissors => .rock

/-- Decoding of a request choice string, combined with the membership test
against valid_choices = ["rock", "paper", "scissors"]. -/
def parseMove (s : String) : Option Move :=
  if s = "rock" then some .rock
  else if s = "paper" then some .paper
  else if s = "scissors" then some .scissors
  else none

/-- Python str.strip() as used on incoming names and ids: drop whitespace
from both ends.  (Defined by structural recursion over the character list so
that concrete instances evaluate.) -/
def pyStrip (s : String) : String :=
  ⟨((s.data.dropWhile Char.isWhitespace).reverse.dropWhile Char.isWhitespace).reverse⟩

/-- Python str.upper() on the ASCII names this server handles. -/
def pyUpper (s : String) : String := ⟨s.data.map Char.toUpper⟩

/-- Python str.lower() on the ASCII strings this server handles. -/
def pyLower (s : String) : String := ⟨s.data.map Char.toLower⟩

/-- The choice_history dictionary with keys "rock", "paper", "scissors",
always created in that insertion order. -/
structure ChoiceHistory where
  rock : Nat
  paper : Nat
  scissors : Nat
deriving DecidableEq, Repr

def ChoiceHistory.get (h : ChoiceHistory) : Move → Nat
  | .rock => h.rock
  | .paper => h.paper
  | .scissors => h.scissors

/-- history[choice] += 1. -/
def ChoiceHistory.incr (h : ChoiceHistory) : Move → ChoiceHistory
  | .rock => { h with rock := h.rock + 1 }
  | .paper => { h with paper := h.paper + 1 }
  | .scissors => { h with scissors := h.scissors + 1 }

/-- sum(history.values()). -/
def ChoiceHistory.total (h : ChoiceHistory) : Nat :=
  h.rock + h.paper + h.scissors

def ChoiceHistory.zero : ChoiceHistory := ⟨0, 0, 0⟩

/-- Python max(d, key=d.get) over a three-way counter whose keys sit in the
insertion order rock, paper, scissors: max keeps the first key attaining the
maximum value. -/
def ChoiceHistory.argmax (h : ChoiceHistory) : Move :=
  let m1 := if h.paper > h.rock then Move.paper else Move.rock
  if h.scissors > h.get m1 then Move.scissors else m1

/-- One LEADERBOARD value (lines 40-61).  Fields that some records lack and
that all readers access through .get with a default are stored with that
default materialised (the CPU record has no move_sequence or pattern_history
key; every read supplies [] and the empty dict for them). -/
structure PlayerRec where
  id : String
  name : String
  score : Nat
  games_won : Nat
  games_played : Nat
  is_cpu : Bool
  created_at : String
  choice_history : ChoiceHistory
  move_sequence : List Move
  pattern_history : List ((Move × Move) × ChoiceHistory)
deriving DecidableEq, Repr

/-- The global LEADERBOARD dict: unique id to record, insertion ordered. -/
abbrev Leaderboard := List (String × PlayerRec)

/-- LEADERBOARD.get(player_id) (lines 108-110). -/
def get_player_by_id (lb : Leaderboard) (pid : String) : Option PlayerRec :=
  (lb.find? (fun e => e.1 == pid)).map (·.2)

/-- LEADERBOARD[pid] = p: overwrite in place when the key is present,
otherwise append (dict insertion-order semantics). -/
def lbSet (lb : Leaderboard) (pid : String) (p : PlayerRec) : Leaderboard :=
  match lb with
  | [] => [(pid, p)]
  | (k, v) :: rest => if k == pid then (k, p) :: rest else (k, v) :: lbSet rest pid p

/-- Read-modify-write of one record, as in LEADERBOARD[pid]["score"] += 1.
The Python indexing would raise on a missing id; all of its call sites run
only for ids that were checked to be registered, so the missing case is
modelled as a no-op. -/
def lbModify (lb : Leaderboard) (pid : String) (f : PlayerRec → PlayerRec) : Leaderboard :=
  match get_player_by_id lb pid with
  | some p => lbSet lb pid (f p)
  | none => lb

/-- pattern_history[key] lookup.  The Python key is str(tuple(...)) of the
2-move pair, which is injective on move pairs, so the pair keys directly. -/
def phLookup (ph : List ((Move × Move) × ChoiceHistory)) (k : Move × Move) :
    Option ChoiceHistory :=
  (ph.find? (fun e => e.1 == k)).map (·.2)

/-- Record-side update (lines 417-420): set pattern_history[key] to the zero
counter when the key is unseen, then += 1 its choice entry. -/
def phBump (ph : List ((Move × Move) × ChoiceHistory)) (k : Move × Move) (choice : Move) :
    List ((Move × Move) × ChoiceHistory) :=
  match ph with
  | [] => [(k, ChoiceHistory.zero.incr choice)]
  | (k0, c0) :: rest =>
    if k0 == k then (k0, c0.incr choice) :: rest else (k0, c0) :: phBump rest k choice

/-- move_sequence[-2:] as an ordered pair, defined when at least two moves
exist (guarded in the source by len(move_seq) >= 2). -/
def lastTwo (l : List Move) : Option (Move × Move) :=
  match l.reverse with
  | b :: a :: _ => some (a, b)
  | _ => none

/-- record_player_choice(player_id, choice) (lines 376-425).  The choice has
already passed the ["rock", "paper", "scissors"] membership test at both call
sites, so it arrives as a Move. -/
def record_player_choice (lb : Leaderboard) (pid : String) (choice : Move) : Leaderboard :=
  match get_player_by_id lb pid with
  | none => lb
  | some p =>
    if p.is_cpu then lb
    else
      let h := p.choice_history.incr choice
      let ph :=
        match lastTwo p.move_sequence with
        | some k => phBump p.pattern_history k choice
        | none => p.pattern_history
      let seq := p.move_sequence ++ [choice]
      let seq := if seq.length > 10 then seq.drop 1 else seq
      lbSet lb pid { p with choice_history := h, pattern_history := ph, move_sequence := seq }

/-- Iterated record_player_choice calls for one player. -/
def record_sequence (lb : Leaderboard) (pid : String) : List Move → Leaderboard
  | [] => lb
  | c :: cs => record_sequence (record_player_choice lb pid c) pid cs

inductive RoundResult where
  | player1
  | player2
  | tie
deriving DecidableEq, Repr

/-- determine_round_winner(choice1, choice2) (lines 428-435). -/
def determine_round_winner (choice1 choice2 : Move) : RoundResult :=
  if choice1 = choice2 then .tie
  else if choice1.beats = choice2 then .player1
  else .player2

/-- Python round() on an exact rational: nearest integer, ties to even. -/
def pyRound (q : ℚ) : Int :=
  let f := q.floor
  let frac := q - (f : ℚ)
  if frac < 1/2 then f
  else if frac > 1/2 then f + 1
  else if f % 2 = 0 then f else f + 1

/-- Oracle for the random module: each field is the value the corresponding
call would return in the branch that reaches it (at most one random.choice
call happens per invocation of the predictor). -/
structure Rng where
  randChoice : Move
  randFloat : ℚ
  weightedChoice : Move
deriving DecidableEq, Repr

/-- The strategy-relevant fields of the dictionary returned by
get_strategic_cpu_choice.  The free-text analysis strings and the echoed
player id and name are presentation only and not modelled. -/
structure CpuResult where
  choice : Move
  strategy_used : String
  confidence : Nat
deriving DecidableEq, Repr

/-- Strategies 2 and 3 of get_strategic_cpu_choice (lines 313-373), reached
when pattern recognition does not fire.  This stage only runs once
total_choices >= 5, so the divisions are by a positive total; the argmax over
the probabilities dictionary equals the argmax over the raw counts. -/
def frequency_stage (p : PlayerRec) (rng : Rng) : CpuResult :=
  let history := p.choice_history
  let total := history.total
  let predicted := history.argmax
  let conf : ℚ := (history.get predicted : ℚ) / (total : ℚ)
  if conf > 2/5 then
    if rng.randFloat < 3/20 then
      { choice := rng.randChoice, strategy_used := "random_variation",
        confidence := (pyRound (conf * 100)).toNat }
    else
      { choice := COUNTER_MOVES predicted, strategy_used := "frequency",
        confidence := (pyRound (conf * 100)).toNat }
  else
    let w : Move → ℚ := fun c => 1 + (history.get c.beats : ℚ) / (max total 1 : Nat)
    let totalW := w .rock + w .paper + w .scissors
    let maxW := max (w .rock / totalW) (max (w .paper / totalW) (w .scissors / totalW))
    { choice := rng.weightedChoice, strategy_used := "weighted",
      confidence := (pyRound (maxW * 100)).toNat }

/-- get_strategic_cpu_choice(opponent_id) (lines 237-373). -/
def get_strategic_cpu_choice (lb : Leaderboard) (oid : String) (rng : Rng) : CpuResult :=
  match get_player_by_id lb oid with
  | none => { choice := rng.randChoice, strategy_used := "random", confidence := 0 }
  | some p =>
    let total := p.choice_history.total
    if total < 5 then
      { choice := rng.randChoice, strategy_used := "learning", confidence := total }
    else
      match lastTwo p.move_sequence with
      | none => frequency_stage p rng
      | some k =>
        match phLookup p.pattern_history k with
        | none => frequency_stage p rng
        | some pd =>
          if pd.total ≥ 3 then
            let predicted := pd.argmax
            let pconf : ℚ := (pd.get predicted : ℚ) / (pd.total : ℚ)
            if pconf > 1/2 then
              { choice := COUNTER_MOVES predicted, strategy_used := "pattern",
                confidence := (pyRound (pconf * 100)).toNat }
            else frequency_stage p rng
          else frequency_stage p rng

/-- One entry of game_history (lines 614-619). -/
structure RoundData where
  round : Nat
  player1_choice : Move
  player2_choice : Move
  result : RoundResult
deriving DecidableEq, Repr

/-- The global GAME_STATE dictionary (lines 71-83); Python None becomes
Option.none. -/
structure GameState where
  player1_id : Option String
  player2_id : Option String
  player1_name : Option String
  player2_name : Option String
  player1_round_wins : Nat
  player2_round_wins : Nat
  current_round : Nat
  game_active : Bool
  previous_winner_id : Option String
  previous_winner_name : Option String
  game_history : List RoundData
deriving DecidableEq, Repr

def initGameState : GameState :=
  { player1_id := none, player2_id := none, player1_name := none, player2_name := none,
    player1_round_wins := 0, player2_round_wins := 0, current_round := 0,
    game_active := false, previous_winner_id := none, previous_winner_name := none,
    game_history := [] }

/-- The process-wide mutable state: (LEADERBOARD, GAME_STATE). -/
abbrev ServerState := Leaderboard × GameState

/-- The fixed CPU id (line 66). -/
def CPU_ID : String := "cpu-00000000-0000-0000-0000-000000000000"

/-- The CPU singleton record created by init_cpu_player (lines 218-227). -/
def cpuRec (now : String) : PlayerRec :=
  { id := CPU_ID, name := "CPU", score := 0, games_won := 0, games_played := 0,
    is_cpu := true, created_at := now,
    choice_history := ChoiceHistory.zero, move_sequence := [], pattern_history := [] }

/-- init_cpu_player() (lines 214-227). -/
def init_cpu_player (lb : Leaderboard) (now : String) : Leaderboard :=
  if (get_player_by_id lb CPU_ID).isSome then lb else lbSet lb CPU_ID (cpuRec now)

/-- Server state right after module load when no data file exists
(load_leaderboard: empty store plus the CPU singleton, idle session). -/
def initState (now : String) : ServerState :=
  (init_cpu_player [] now, initGameState)

inductive RegResp where
  | err (msg : String)
  | cpuReady (stats : Option PlayerRec)
  | created (pid : String) (p : PlayerRec)
deriving DecidableEq, Repr

/-- register_player route (lines 446-496).  newId stands for the fresh
uuid.uuid4() string and now for datetime.now().isoformat(); the cpuReady
branch reports LEADERBOARD[CPU_ID] (present in every reachable state). -/
def register_player (lb : Leaderboard) (rawName : String) (is_cpu : Bool)
    (newId now : String) : RegResp × Leaderboard :=
  let player_name := pyStrip rawName
  if player_name.isEmpty then (.err "Player name is required", lb)
  else if is_cpu || pyUpper player_name == "CPU" then
    (.cpuReady (get_player_by_id lb CPU_ID), lb)
  else
    let p : PlayerRec :=
      { id := newId, name := player_name, score := 0, games_won := 0, games_played := 0,
        is_cpu := false, created_at := now,
        choice_history := ChoiceHistory.zero, move_sequence := [], pattern_history := [] }
    (.created newId p, lbSet lb newId p)

/-- start_game route (lines 527-569): inputs are the raw id strings of the
request body. -/
def start_game (st : ServerState) (raw1 raw2 : String) :
    Except String Unit × ServerState :=
  let lb := st.1
  let gs := st.2
  let player1_id := pyStrip raw1
  let player2_id := pyStrip raw2
  if player1_id.isEmpty || player2_id.isEmpty then
    (.error "Both player IDs are required", st)
  else
    match get_player_by_id lb player1_id, get_player_by_id lb player2_id with
    | some p1, some p2 =>
      (.ok (),
       (lb,
        { player1_id := some player1_id, player2_id := some player2_id,
          player1_name := some p1.name, player2_name := some p2.name,
          player1_round_wins := 0, player2_round_wins := 0, current_round := 0,
          game_active := true,
          previous_winner_id := gs.previous_winner_id,
          previous_winner_name := gs.previous_winner_name,
          game_history := [] }))
    | _, _ => (.error "Both players must be registered first", st)

/-- LEADERBOARD[pid]["score"] += 1 (lines 623 and 626). -/
def scoreBump (lb : Leaderboard) (pid : String) : Leaderboard :=
  lbModify lb pid (fun p => { p with score := p.score + 1 })

/-- LEADERBOARD[pid]["games_won"] += 1 (lines 640 and 644). -/
def gamesWonBump (lb : Leaderboard) (pid : String) : Leaderboard :=
  lbModify lb pid (fun p => { p with games_won := p.games_won + 1 })

/-- LEADERBOARD[pid]["games_played"] += 1 (lines 646-647). -/
def gamesPlayedBump (lb : Leaderboard) (pid : String) : Leaderboard :=
  lbModify lb pid (fun p => { p with games_played := p.games_played + 1 })

/-- The per-round score update (lines 621-626): the round winner, if any,
gets one leaderboard point. -/
def roundScoreUpdate (lb : Leaderboard) (result : RoundResult) (pid1 pid2 : String) :
    Leaderboard :=
  match result with
  | .player1 => scoreBump lb pid1
  | .player2 => scoreBump lb pid2
  | .tie => lb

/-- The game-over games_won update (lines 637-644). -/
def winnerUpdate (lb : Leaderboard) (winner : Option (String × Option String)) :
    Leaderboard :=
  match winner with
  | some w => gamesWonBump lb w.1
  | none => lb

/-- play_round route (lines 572-672).  The ids stored in GAME_STATE are
unwrapped with the empty string standing for Python None; both are genuine
ids whenever game_active holds. -/
def play_round (st : ServerState) (raw1 raw2 : String) :
    Except String Unit × ServerState :=
  let lb := st.1
  let gs := st.2
  if !gs.game_active then (.error "No active game", st)
  else if gs.current_round ≥ 10 then (.error "Game is over", st)
  else
    match parseMove (pyLower raw1), parseMove (pyLower raw2) with
    | some choice1, some choice2 =>
      let player1_id := gs.player1_id.getD ""
      let player2_id := gs.player2_id.getD ""
      let lb1 := record_player_choice lb player1_id choice1
      let lb2 := record_player_choice lb1 player2_id choice2
      let round := gs.current_round + 1
      let result := determine_round_winner choice1 choice2
      let round_data : RoundData :=
        { round := round, player1_choice := choice1, player2_choice := choice2,
          result := result }
      let wins1 := gs.player1_round_wins + (if result = .player1 then 1 else 0)
      let wins2 := gs.player2_round_wins + (if result = .player2 then 1 else 0)
      let lb3 := roundScoreUpdate lb2 result player1_id player2_id
      let history := gs.game_history ++ [round_data]
      if round ≥ 10 then
        let winner : Option (String × Option String) :=
          if wins1 > wins2 then some (player1_id, gs.player1_name)
          else if wins2 > wins1 then some (player2_id, gs.player2_name)
          else none
        let lb4 := winnerUpdate lb3 winner
        let lb5 := gamesPlayedBump (gamesPlayedBump lb4 player1_id) player2_id
        let prev : Option (String × Option String) :=
          match winner with
          | some (wid, wname) =>
            if wid.isEmpty || wid == CPU_ID then none else some (wid, wname)
          | none => none
        (.ok (),
         (lb5,
          { gs with
            player1_round_wins := wins1, player2_round_wins := wins2,
            current_round := round, game_active := false,
            game_history := history,
            previous_winner_id := prev.map (·.1),
            previous_winner_name :=
              match prev with
              | some (_, n) => n
              | none => none }))
      else
        (.ok (),
         (lb3,
          { gs with
            player1_round_wins := wins1, player2_round_wins := wins2,
            current_round := round, game_history := history }))
    | _, _ => (.error "Invalid choice", st)

/-- A run of play_round calls; the Bool component records whether every call
in the list succeeded. -/
def run_rounds (st : ServerState) : List (String × String) → Bool × ServerState
  | [] => (true, st)
  | (c1, c2) :: rest =>
    let r := play_round st c1 c2
    let next := run_rounds r.2 rest
    ((match r.1 with
      | .ok _ => true
      | .error _ => false) && next.1, next.2)

/-- cpu_strategic_choice route (lines 699-720). -/
def cpu_strategic_choice (st : ServerState) (rawId : String) (rng : Rng) :
    Except String CpuResult × ServerState :=
  let opponent_id := pyStrip rawId
  if opponent_id.isEmpty then (.error "Opponent ID is required", st)
  else (.ok (get_strategic_cpu_choice st.1 opponent_id rng), st)

/-- reset_tournament route (lines 756-780). -/
def reset_tournament (now : String) : ServerState :=
  (init_cpu_player [] now, initGameState)

/-- A freshly registered human record, as built by register_player. -/
def mkHuman (pid nm : String) : PlayerRec :=
  { id := pid, name := nm, score := 0, games_won := 0, games_played := 0,
    is_cpu := false, created_at := "t0",
    choice_history := ChoiceHistory.zero, move_sequence := [], pattern_history := [] }

def C3rec : PlayerRec :=
  { id := "p1", name := "Ann", score := 0, games_won := 0, games_played := 0,
    is_cpu := false, created_at := "t0",
    choice_history := ⟨3, 1, 1⟩,
    move_sequence := [Move.paper, Move.rock, Move.rock],
    pattern_history := [((Move.rock, Move.rock), ⟨1, 4, 0⟩)] }

def C3lb : Leaderboard := [("p1", C3rec)]

def C1lb : Leaderboard := [("p1", mkHuman "p1" "Ann")]

def ghostRng : Rng := ⟨Move.rock, 0, Move.rock⟩

/-- sum(choice_history.values()) of the record stored under pid, when present. -/
def playerTotal (lb : Leaderboard) (pid : String) : Option Nat :=
  (get_player_by_id lb pid).map fun p => p.choice_history.total

/-- The state-changing server operations, each carrying the oracle inputs
(fresh uuid, timestamp, random values) its route consumes. -/
inductive Op where
  | register (rawName : String) (is_cpu : Bool) (newId now : String)
  | start (raw1 raw2 : String)
  | play (raw1 raw2 : String)
  | cpu (rawId : String) (rng : Rng)
  | reset (now : String)
deriving DecidableEq, Repr

def Op.step (st : ServerState) : Op → ServerState
  | .register n c i t => ((register_player st.1 n c i t).2, st.2)
  | .start r1 r2 => (start_game st r1 r2).2
  | .play r1 r2 => (play_round st r1 r2).2
  | .cpu oid rng => (cpu_strategic_choice st oid rng).2
  | .reset now => reset_tournament now

def runOps (st : ServerState) : List Op → ServerState
  | [] => st
  | op :: ops => runOps (Op.step st op) ops

/-- uuid.uuid4() can never return the reserved CPU id (its format differs);
runs below assume this of the supplied fresh ids. -/
def Op.freshIdOk : Op → Bool
  | .register _ _ newId _ => newId != CPU_ID
  | _ => true

/-- The CPU record carries no accumulated history: zero frequency counts, no
move sequence, no patterns. -/
def cpuHistoriesEmpty (p : PlayerRec) : Prop :=
  p.is_cpu = true ∧ p.choice_history = ChoiceHistory.zero
    ∧ p.move_sequence = [] ∧ p.pattern_history = []

/-- Whatever sits under the CPU id has empty histories. -/
def cpuUnchanged (lb : Leaderboard) : Prop :=
  ∀ p, get_player_by_id lb CPU_ID = some p → cpuHistoriesEmpty p

def C9ops : List Op :=
  [Op.register "Ann" false "id-1" "t1", Op.start "id-1" CPU_ID, Op.play "rock" "paper"]

def C5lb : Leaderboard := [("a", mkHuman "a" "Ann"), ("b", mkHuman "b" "Bob")]

def C5st0 : ServerState := (start_game (C5lb, initGameState) "a" "b").2

def C5cs : List (String × String) := List.replicate 10 ("rock", "scissors")

/-- One element of the players_list comprehension (lines 730-741). -/
structure LBEntry where
  id : String
  name : String
  score : Nat
  games_won : Nat
  games_played : Nat
  is_cpu : Bool
  total_rounds : Nat
deriving DecidableEq, Repr

/-- The list comprehension of get_leaderboard, in dict insertion order. -/
def players_list (lb : Leaderboard) : List LBEntry :=
  lb.map fun e =>
    { id := e.1, name := e.2.name, score := e.2.score, games_won := e.2.games_won,
      games_played := e.2.games_played, is_cpu := e.2.is_cpu,
      total_rounds := e.2.choice_history.total }

/-- Python string comparison, lexicographic on code points. -/
def leChars : List Char → List Char → Bool
  | [], _ => true
  | _ :: _, [] => false
  | a :: as, b :: bs =>
    if a.toNat < b.toNat then true
    else if b.toNat < a.toNat then false
    else leChars as bs

def strLeB (a b : String) : Bool := leChars a.data b.data

/-- The total preorder realised by sorted(key=lambda x: x["name"].lower()). -/
def nameLe (a b : LBEntry) : Bool := strLeB (pyLower a.name) (pyLower b.name)

/-- The total preorder realised by
sorted(key=lambda x: (-x["score"], x["name"].lower())). -/
def scoreLe (a b : LBEntry) : Bool :=
  if b.score < a.score then true
  else if a.score < b.score then false
  else strLeB (pyLower a.name) (pyLower b.name)

/-- Insert before the first element the new one is at-or-below; for a total
preorder key this reproduces Python's stable sorted exactly. -/
def sInsert {α : Type} (le : α → α → Bool) (x : α) : List α → List α
  | [] => [x]
  | y :: ys => if le x y then x :: y :: ys else y :: sInsert le x ys

def stableSort {α : Type} (le : α → α → Bool) : List α → List α
  | [] => []
  | x :: xs => sInsert le x (stableSort le xs)

structure LeaderboardView where
  total_players : Nat
  sorted_by_name : List LBEntry
  sorted_by_score : List LBEntry
deriving DecidableEq, Repr

/-- get_leaderboard route (lines 723-753). -/
def get_leaderboard (lb : Leaderboard) : LeaderboardView :=
  let pl := players_list lb
  { total_players := pl.length,
    sorted_by_name := stableSort nameLe pl,
    sorted_by_score := stableSort scoreLe pl }

/-- The spec's example store: A with score 3, b with score 3, C with score 5,
registered in that order. -/
def C8lb : Leaderboard :=
  [("i1", { mkHuman "i1" "A" with score := 3 }),
   ("i2", { mkHuman "i2" "b" with score := 3 }),
   ("i3", { mkHuman "i3" "C" with score := 5 })]

/-- Claim C7: round resolution returns tie exactly on equal choices, player1
exactly when choice1 beats choice2 under the cyclic relation rock beats
scissors, paper beats rock, scissors beats paper, and player2 in every
remaining case. -/
theorem C7_round_resolution (c1 c2 : Move) :
    (determine_round_winner c1 c2 = .tie ↔ c1 = c2)
    ∧ (determine_round_winner c1 c2 = .player1 ↔ c1.beats = c2)
    ∧ (determine_round_winner c1 c2 = .player2 ↔ (¬ c1 = c2 ∧ ¬ c1.beats = c2)) := by
  cases c1 <;> cases c2 <;> decide

/-- Claim C6: the CPU-choice endpoint, and with it the strategic predictor it
wraps, leaves the whole server state - every player record including the
queried one, and the game session - unchanged. -/
theorem C6_predict_never_mutates (st : ServerState) (rawId : String) (rng : Rng) :
    (cpu_strategic_choice st rawId rng).2 = st := by
  simp only [cpu_strategic_choice]
  split <;> rfl

lemma rat_floor_eq_floor (q : ℚ) : q.floor = ⌊q⌋ := rfl

lemma pyRound_intCast (n : ℤ) : pyRound (n : ℚ) = n := by
  unfold pyRound
  rw [rat_floor_eq_floor, Int.floor_intCast]
  norm_num

/-- Claim C3 (as proved): whenever the looked-up opponent has at least five
recorded choices, a move sequence ending in (rock, rock), and the
pattern_history entry for that pair equal to one rock, four paper, zero
scissors, the predictor answers scissors by the pattern strategy with
confidence 80. -/
theorem C3_pattern_scenario (lb : Leaderboard) (oid : String) (rng : Rng) (p : PlayerRec)
    (hp : get_player_by_id lb oid = some p)
    (htot : 5 ≤ p.choice_history.total)
    (hseq : lastTwo p.move_sequence = some (Move.rock, Move.rock))
    (hpat : phLookup p.pattern_history (Move.rock, Move.rock) = some ⟨1, 4, 0⟩) :
    get_strategic_cpu_choice lb oid rng =
      { choice := Move.scissors, strategy_used := "pattern", confidence := 80 } := by
  have hlt : ¬ p.choice_history.total < 5 := by omega
  simp only [get_strategic_cpu_choice, hp, hseq, hpat, if_neg hlt]
  norm_num [ChoiceHistory.total, ChoiceHistory.argmax, ChoiceHistory.get, COUNTER_MOVES]
  rw [show ((80 : ℚ)) = ((80 : ℤ) : ℚ) from by norm_num, pyRound_intCast]
  rfl

theorem C3_witness :
    get_strategic_cpu_choice C3lb "p1" ⟨Move.rock, 0, Move.rock⟩ =
      { choice := Move.scissors, strategy_used := "pattern", confidence := 80 } :=
  C3_pattern_scenario C3lb "p1" ⟨Move.rock, 0, Move.rock⟩ C3rec (by decide) (by decide)
    (by decide) (by decide)

/-- Claim C1 (as amended): start_game succeeds exactly when both trimmed ids
are non-empty and registered - equality of the two ids is not checked and a
game of a registered player against itself starts fine; each rejection
leaves the leaderboard and the session untouched. -/
theorem C1_start_game_checks (lb : Leaderboard) (gs : GameState) (raw1 raw2 : String)
    (q1 q2 : PlayerRec) :
    (((pyStrip raw1).isEmpty || (pyStrip raw2).isEmpty) = true →
       start_game (lb, gs) raw1 raw2 = (.error "Both player IDs are required", (lb, gs)))
    ∧ ((pyStrip raw1).isEmpty = false → (pyStrip raw2).isEmpty = false →
       (get_player_by_id lb (pyStrip raw1) = none ∨ get_player_by_id lb (pyStrip raw2) = none) →
       start_game (lb, gs) raw1 raw2 =
         (.error "Both players must be registered first", (lb, gs)))
    ∧ ((pyStrip raw1).isEmpty = false → (pyStrip raw2).isEmpty = false →
       get_player_by_id lb (pyStrip raw1) = some q1 → get_player_by_id lb (pyStrip raw2) = some q2 →
       start_game (lb, gs) raw1 raw2 =
         (.ok (),
          (lb,
           { player1_id := some (pyStrip raw1), player2_id := some (pyStrip raw2),
             player1_name := some q1.name, player2_name := some q2.name,
             player1_round_wins := 0, player2_round_wins := 0, current_round := 0,
             game_active := true,
             previous_winner_id := gs.previous_winner_id,
             previous_winner_name := gs.previous_winner_name,
             game_history := [] }))) := by
  refine ⟨fun h => ?_, fun h1 h2 hnone => ?_, fun h1 h2 hs1 hs2 => ?_⟩
  · simp [start_game, h]
  · cases hA : get_player_by_id lb (pyStrip raw1) with
    | none => simp [start_game, h1, h2, hA]
    | some p1 =>
      cases hB : get_player_by_id lb (pyStrip raw2) with
      | none => simp [start_game, h1, h2, hA, hB]
      | some p2 =>
        rcases hnone with hn | hn
        · rw [hA] at hn
          exact absurd hn (by simp)
        · rw [hB] at hn
          exact absurd hn (by simp)
  · simp [start_game, h1, h2, hs1, hs2]

/-- Claim C1 counterexample: a start-game call with the same registered id on
both sides is accepted, not rejected - the session becomes active. -/
theorem C1_same_id_accepted :
    (start_game (C1lb, initGameState) "p1" "p1").1 = Except.ok ()
    ∧ (start_game (C1lb, initGameState) "p1" "p1").2.2.game_active = true :=
  ⟨rfl, rfl⟩

theorem C1_witness :
    start_game (C1lb, initGameState) "p1" "p1" =
      (.ok (),
       (C1lb,
        { player1_id := some "p1", player2_id := some "p1",
          player1_name := some "Ann", player2_name := some "Ann",
          player1_round_wins := 0, player2_round_wins := 0, current_round := 0,
          game_active := true, previous_winner_id := none, previous_winner_name := none,
          game_history := [] })) :=
  (C1_start_game_checks C1lb initGameState "p1" "p1" (mkHuman "p1" "Ann")
      (mkHuman "p1" "Ann")).2.2 (by decide) (by decide) (by decide) (by decide)

/-- Claim C2 (as amended): an empty opponent id is rejected with a
descriptive error and no state change, but a non-empty unregistered id is
not rejected - the endpoint still answers a move, with strategy "random" and
confidence 0, again without touching any state. -/
theorem C2_cpu_choice_validation (st : ServerState) (rawId : String) (rng : Rng) :
    ((pyStrip rawId).isEmpty = true →
       cpu_strategic_choice st rawId rng = (.error "Opponent ID is required", st))
    ∧ ((pyStrip rawId).isEmpty = false → get_player_by_id st.1 (pyStrip rawId) = none →
       cpu_strategic_choice st rawId rng =
         (.ok { choice := rng.randChoice, strategy_used := "random", confidence := 0 },
          st)) := by
  refine ⟨fun h => ?_, fun h1 h2 => ?_⟩
  · simp [cpu_strategic_choice, h]
  · simp [cpu_strategic_choice, h1, get_strategic_cpu_choice, h2]

/-- Claim C2 counterexample: querying the CPU choice for an unregistered
opponent id returns a move (strategy "random", confidence 0) with HTTP
success, instead of the validation rejection the claim requires. -/
theorem C2_unknown_id_returns_move :
    (cpu_strategic_choice (initState "t0") "ghost" ghostRng).1 =
      Except.ok { choice := Move.rock, strategy_used := "random", confidence := 0 } :=
  rfl

theorem C2_witness :
    cpu_strategic_choice (initState "t0") "nobody" ghostRng =
      (.ok { choice := Move.rock, strategy_used := "random", confidence := 0 },
       initState "t0") :=
  (C2_cpu_choice_validation (initState "t0") "nobody" ghostRng).2 (by decide) (by decide)

/-- Claim C10: registering any name whose upper-casing is "CPU", even with
the is_cpu flag off, creates nothing: the store is returned unchanged and
the response carries the existing CPU singleton record. -/
theorem C10_register_cpu_name (lb : Leaderboard) (rawName newId now : String)
    (hn : (pyStrip rawName).isEmpty = false) (hc : pyUpper (pyStrip rawName) = "CPU") :
    register_player lb rawName false newId now =
      (.cpuReady (get_player_by_id lb CPU_ID), lb) := by
  simp [register_player, hn, hc]

theorem C10_witness :
    register_player (initState "t0").1 "cpu" false "some-new-uuid" "t1" =
      (.cpuReady (get_player_by_id (initState "t0").1 CPU_ID), (initState "t0").1) :=
  C10_register_cpu_name (initState "t0").1 "cpu" "some-new-uuid" "t1" (by decide)
    (by decide)

lemma get_player_by_id_cons (k0 : String) (v : PlayerRec) (rest : Leaderboard) (k : String) :
    get_player_by_id ((k0, v) :: rest) k =
      if k0 == k then some v else get_player_by_id rest k := by
  simp only [get_player_by_id, List.find?]
  by_cases h : k0 == k
  · simp [h]
  · simp [h]

lemma get_lbSet_self (lb : Leaderboard) (k : String) (p : PlayerRec) :
    get_player_by_id (lbSet lb k p) k = some p := by
  induction lb with
  | nil => simp [lbSet, get_player_by_id_cons]
  | cons e rest ih =>
    obtain ⟨k0, v⟩ := e
    by_cases h : k0 == k
    · simp [lbSet, h, get_player_by_id_cons]
    · simp [lbSet, h, get_player_by_id_cons, ih]

lemma get_lbSet_ne (lb : Leaderboard) (k k' : String) (p : PlayerRec) (h : k' ≠ k) :
    get_player_by_id (lbSet lb k p) k' = get_player_by_id lb k' := by
  have hkk : (k == k') = false := beq_eq_false_iff_ne.mpr (Ne.symm h)
  induction lb with
  | nil => simp [lbSet, get_player_by_id_cons, get_player_by_id, hkk]
  | cons e rest ih =>
    obtain ⟨k0, v⟩ := e
    by_cases h0 : (k0 == k) = true
    · have hk0 : k0 = k := by simpa using h0
      subst hk0
      simp [lbSet, get_player_by_id_cons, hkk]
    · simp [lbSet, h0, get_player_by_id_cons, ih]

lemma total_incr (h : ChoiceHistory) (c : Move) : (h.incr c).total = h.total + 1 := by
  cases c <;> simp [ChoiceHistory.incr, ChoiceHistory.total] <;> omega

lemma record_player_choice_found (lb : Leaderboard) (pid : String) (c : Move) (p : PlayerRec)
    (hp : get_player_by_id lb pid = some p) (hc : p.is_cpu = false) :
    record_player_choice lb pid c =
      lbSet lb pid
        { p with
          choice_history := p.choice_history.incr c,
          pattern_history :=
            match lastTwo p.move_sequence with
            | some k => phBump p.pattern_history k c
            | none => p.pattern_history,
          move_sequence :=
            if (p.move_sequence ++ [c]).length > 10 then (p.move_sequence ++ [c]).drop 1
            else p.move_sequence ++ [c] } := by
  unfold record_player_choice
  rw [hp]
  simp [hc]

lemma record_step_total (lb : Leaderboard) (pid : String) (c : Move) (p : PlayerRec)
    (hp : get_player_by_id lb pid = some p) (hc : p.is_cpu = false) :
    ∃ q, get_player_by_id (record_player_choice lb pid c) pid = some q
      ∧ q.is_cpu = false ∧ q.choice_history.total = p.choice_history.total + 1 := by
  rw [record_player_choice_found lb pid c p hp hc]
  exact ⟨_, get_lbSet_self lb pid _, hc, by simpa using total_incr p.choice_history c⟩

lemma record_sequence_total (pid : String) (cs : List Move) :
    ∀ (lb : Leaderboard) (p : PlayerRec), get_player_by_id lb pid = some p →
      p.is_cpu = false →
      ∃ q, get_player_by_id (record_sequence lb pid cs) pid = some q
        ∧ q.is_cpu = false
        ∧ q.choice_history.total = p.choice_history.total + cs.length := by
  induction cs with
  | nil => exact fun lb p hp hc => ⟨p, hp, hc, by simp [record_sequence]⟩
  | cons c cs ih =>
    intro lb p hp hc
    obtain ⟨q, hq, hqc, hqt⟩ := record_step_total lb pid c p hp hc
    obtain ⟨r, hr, hrc, hrt⟩ := ih _ q hq hqc
    exact ⟨r, by simpa [record_sequence] using hr, hrc, by simp at hrt ⊢; omega⟩

/-- Claim C4: starting from a freshly registered (non-CPU) record, any finite
sequence of valid record calls leaves sum(choice_history.values()) equal to
the number of calls. -/
theorem C4_history_counts_records (lb : Leaderboard) (rawName newId now : String)
    (hn : (pyStrip rawName).isEmpty = false)
    (hc : pyUpper (pyStrip rawName) ≠ "CPU")
    (cs : List Move) :
    playerTotal (record_sequence (register_player lb rawName false newId now).2 newId cs)
      newId = some cs.length := by
  have hb : (pyUpper (pyStrip rawName) == "CPU") = false := beq_eq_false_iff_ne.mpr hc
  have hreg : (register_player lb rawName false newId now).2 =
      lbSet lb newId
        { id := newId, name := pyStrip rawName, score := 0, games_won := 0,
          games_played := 0, is_cpu := false, created_at := now,
          choice_history := ChoiceHistory.zero, move_sequence := [],
          pattern_history := [] } := by
    simp [register_player, hn, hb]
  rw [hreg]
  have hfresh := get_lbSet_self lb newId
    { id := newId, name := pyStrip rawName, score := 0, games_won := 0,
      games_played := 0, is_cpu := false, created_at := now,
      choice_history := ChoiceHistory.zero, move_sequence := [],
      pattern_history := [] }
  obtain ⟨q, hq, -, hqt⟩ := record_sequence_total newId cs _ _ hfresh rfl
  rw [playerTotal, hq]
  simpa [ChoiceHistory.zero, ChoiceHistory.total] using congrArg some hqt

theorem C4_witness :
    playerTotal
      (record_sequence (register_player [] "Alice" false "id-1" "t0").2 "id-1"
        [Move.rock, Move.paper, Move.rock]) "id-1" = some 3 :=
  C4_history_counts_records [] "Alice" "id-1" "t0" (by decide) (by decide)
    [Move.rock, Move.paper, Move.rock]

lemma cpu_route_state_eq (st : ServerState) (r : String) (g : Rng) :
    (cpu_strategic_choice st r g).2 = st := by
  simp only [cpu_strategic_choice]
  split <;> rfl

lemma start_game_lb (st : ServerState) (r1 r2 : String) :
    (start_game st r1 r2).2.1 = st.1 := by
  unfold start_game
  dsimp only
  split
  · rfl
  · split <;> rfl

lemma cpuUnchanged_lbSet_ne (lb : Leaderboard) (k : String) (p : PlayerRec)
    (h : k ≠ CPU_ID) : cpuUnchanged lb → cpuUnchanged (lbSet lb k p) := by
  intro hI q hq
  rw [get_lbSet_ne lb k CPU_ID p (Ne.symm h)] at hq
  exact hI q hq

lemma cpuUnchanged_lbModify (lb : Leaderboard) (pid : String) (f : PlayerRec → PlayerRec)
    (hf : ∀ p, (f p).is_cpu = p.is_cpu ∧ (f p).choice_history = p.choice_history
      ∧ (f p).move_sequence = p.move_sequence ∧ (f p).pattern_history = p.pattern_history) :
    cpuUnchanged lb → cpuUnchanged (lbModify lb pid f) := by
  intro hI
  unfold lbModify
  cases hg : get_player_by_id lb pid with
  | none => exact hI
  | some p =>
    by_cases hk : pid = CPU_ID
    · subst hk
      intro q hq
      rw [get_lbSet_self] at hq
      injection hq with hq
      subst hq
      obtain ⟨h1, h2, h3, h4⟩ := hf p
      obtain ⟨g1, g2, g3, g4⟩ := hI p hg
      exact ⟨h1.trans g1, h2.trans g2, h3.trans g3, h4.trans g4⟩
    · intro q hq
      rw [get_lbSet_ne lb pid CPU_ID (f p) (fun hh => hk hh.symm)] at hq
      exact hI q hq

lemma cpuUnchanged_scoreBump (lb : Leaderboard) (pid : String) :
    cpuUnchanged lb → cpuUnchanged (scoreBump lb pid) :=
  cpuUnchanged_lbModify lb pid _ (fun _ => ⟨rfl, rfl, rfl, rfl⟩)

lemma cpuUnchanged_gamesWonBump (lb : Leaderboard) (pid : String) :
    cpuUnchanged lb → cpuUnchanged (gamesWonBump lb pid) :=
  cpuUnchanged_lbModify lb pid _ (fun _ => ⟨rfl, rfl, rfl, rfl⟩)

lemma cpuUnchanged_gamesPlayedBump (lb : Leaderboard) (pid : String) :
    cpuUnchanged lb → cpuUnchanged (gamesPlayedBump lb pid) :=
  cpuUnchanged_lbModify lb pid _ (fun _ => ⟨rfl, rfl, rfl, rfl⟩)

lemma cpuUnchanged_roundScoreUpdate (lb : Leaderboard) (result : RoundResult)
    (pid1 pid2 : String) :
    cpuUnchanged lb → cpuUnchanged (roundScoreUpdate lb result pid1 pid2) := by
  intro hI
  cases result with
  | player1 => exact cpuUnchanged_scoreBump lb pid1 hI
  | player2 => exact cpuUnchanged_scoreBump lb pid2 hI
  | tie => exact hI

lemma cpuUnchanged_winnerUpdate (lb : Leaderboard)
    (winner : Option (String × Option String)) :
    cpuUnchanged lb → cpuUnchanged (winnerUpdate lb winner) := by
  intro hI
  cases winner with
  | none => exact hI
  | some w => exact cpuUnchanged_gamesWonBump lb w.1 hI

lemma cpuUnchanged_record (lb : Leaderboard) (pid : String) (c : Move) :
    cpuUnchanged lb → cpuUnchanged (record_player_choice lb pid c) := by
  intro hI
  unfold record_player_choice
  cases hg : get_player_by_id lb pid with
  | none => exact hI
  | some p =>
    dsimp only
    by_cases hcpu : p.is_cpu = true
    · rw [if_pos hcpu]
      exact hI
    · rw [if_neg hcpu]
      by_cases hk : pid = CPU_ID
      · subst hk
        exact absurd (hI p hg).1 hcpu
      · exact cpuUnchanged_lbSet_ne lb pid _ hk hI

lemma cpuUnchanged_play (st : ServerState) (r1 r2 : String) :
    cpuUnchanged st.1 → cpuUnchanged (play_round st r1 r2).2.1 := by
  intro hI
  unfold play_round
  dsimp only
  by_cases hA : (!st.2.game_active) = true
  · rw [if_pos hA]
    exact hI
  · rw [if_neg hA]
    by_cases hR : st.2.current_round ≥ 10
    · rw [if_pos hR]
      exact hI
    · rw [if_neg hR]
      cases hm1 : parseMove (pyLower r1) with
      | none => exact hI
      | some c1 =>
        cases hm2 : parseMove (pyLower r2) with
        | none => exact hI
        | some c2 =>
          dsimp only
          by_cases h10 : st.2.current_round + 1 ≥ 10
          · rw [if_pos h10]
            exact
              cpuUnchanged_gamesPlayedBump _ _
                (cpuUnchanged_gamesPlayedBump _ _
                  (cpuUnchanged_winnerUpdate _ _
                    (cpuUnchanged_roundScoreUpdate _ _ _ _
                      (cpuUnchanged_record _ _ _ (cpuUnchanged_record _ _ _ hI)))))
          · rw [if_neg h10]
            exact
              cpuUnchanged_roundScoreUpdate _ _ _ _
                (cpuUnchanged_record _ _ _ (cpuUnchanged_record _ _ _ hI))

lemma cpuUnchanged_register (lb : Leaderboard) (n : String) (c : Bool)
    (newId now : String) (h : newId ≠ CPU_ID) :
    cpuUnchanged lb → cpuUnchanged (register_player lb n c newId now).2 := by
  intro hI
  unfold register_player
  dsimp only
  by_cases h1 : (pyStrip n).isEmpty = true
  · rw [if_pos h1]
    exact hI
  · rw [if_neg h1]
    by_cases h2 : (c || pyUpper (pyStrip n) == "CPU") = true
    · rw [if_pos h2]
      exact hI
    · rw [if_neg h2]
      exact cpuUnchanged_lbSet_ne lb newId _ h hI

lemma cpuUnchanged_init (now : String) : cpuUnchanged (init_cpu_player [] now) := by
  intro q hq
  have he : init_cpu_player [] now = [(CPU_ID, cpuRec now)] := rfl
  rw [he, get_player_by_id_cons] at hq
  simp at hq
  subst hq
  exact ⟨rfl, rfl, rfl, rfl⟩

lemma cpuUnchanged_runOps (ops : List Op) :
    ∀ st : ServerState, cpuUnchanged st.1 → (∀ op ∈ ops, op.freshIdOk = true) →
      cpuUnchanged (runOps st ops).1 := by
  induction ops with
  | nil => exact fun _ hI _ => hI
  | cons op ops ih =>
    intro st hI hok
    refine ih (Op.step st op) ?_ (fun o ho => hok o (List.mem_cons_of_mem op ho))
    have hop := hok op (List.mem_cons_self op ops)
    cases op with
    | register n c i t =>
      have hi : i ≠ CPU_ID := by simpa [Op.freshIdOk] using hop
      exact cpuUnchanged_register st.1 n c i t hi hI
    | start r1 r2 =>
      show cpuUnchanged (start_game st r1 r2).2.1
      rw [start_game_lb]
      exact hI
    | play r1 r2 => exact cpuUnchanged_play st r1 r2 hI
    | cpu oid rng =>
      show cpuUnchanged (cpu_strategic_choice st oid rng).2.1
      rw [cpu_route_state_eq]
      exact hI
    | reset now => exact cpuUnchanged_init now

/-- Claim C9: recording a move for a record flagged is_cpu is a silent no-op
leaving the whole store untouched, and over any operation sequence from the
initial state the CPU singleton never accumulates choice_history counts,
move_sequence entries, or pattern_history keys. -/
theorem C9_cpu_record_untouched :
    (∀ (lb : Leaderboard) (pid : String) (c : Move) (p : PlayerRec),
        get_player_by_id lb pid = some p → p.is_cpu = true →
        record_player_choice lb pid c = lb)
    ∧ (∀ (now : String) (ops : List Op) (p : PlayerRec),
        (∀ op ∈ ops, op.freshIdOk = true) →
        get_player_by_id (runOps (initState now) ops).1 CPU_ID = some p →
        p.is_cpu = true ∧ p.choice_history = ChoiceHistory.zero
          ∧ p.move_sequence = [] ∧ p.pattern_history = []) := by
  constructor
  · intro lb pid c p hp hcpu
    unfold record_player_choice
    rw [hp]
    exact if_pos hcpu
  · intro now ops p hok hp
    exact cpuUnchanged_runOps ops (initState now) (cpuUnchanged_init now) hok p hp

theorem C9_witness :
    record_player_choice [(CPU_ID, cpuRec "t0")] CPU_ID Move.rock = [(CPU_ID, cpuRec "t0")]
    ∧ ({ cpuRec "t0" with score := 1 } : PlayerRec).choice_history = ChoiceHistory.zero :=
  ⟨C9_cpu_record_untouched.1 [(CPU_ID, cpuRec "t0")] CPU_ID Move.rock (cpuRec "t0")
      (by decide) (by decide),
   (C9_cpu_record_untouched.2 "t0" C9ops { cpuRec "t0" with score := 1 }
      (by decide) (by decide)).2.1⟩

lemma play_round_inactive (st : ServerState) (c1 c2 : String)
    (h : st.2.game_active = false) :
    play_round st c1 c2 = (.error "No active game", st) := by
  unfold play_round
  dsimp only
  rw [if_pos (show (!st.2.game_active) = true by simp [h])]

lemma play_round_step (st : ServerState) (c1 c2 : String) (m1 m2 : Move)
    (hA : st.2.game_active = true) (hR : st.2.current_round < 10)
    (h1 : parseMove (pyLower c1) = some m1) (h2 : parseMove (pyLower c2) = some m2) :
    (play_round st c1 c2).1 = .ok ()
    ∧ (play_round st c1 c2).2.2.current_round = st.2.current_round + 1
    ∧ (play_round st c1 c2).2.2.game_active = decide (st.2.current_round + 1 < 10) := by
  unfold play_round
  dsimp only
  rw [if_neg (show ¬ (!st.2.game_active) = true by simp [hA]),
    if_neg (show ¬ st.2.current_round ≥ 10 by omega), h1, h2]
  dsimp only
  by_cases h10 : st.2.current_round + 1 ≥ 10
  · rw [if_pos h10]
    refine ⟨rfl, rfl, ?_⟩
    have hn : ¬ (st.2.current_round + 1 < 10) := by omega
    simp [hn]
  · rw [if_neg h10]
    refine ⟨rfl, rfl, ?_⟩
    have hy : st.2.current_round + 1 < 10 := by omega
    simp [hA, hy]

lemma play_round_round_le (st : ServerState) (c1 c2 : String)
    (h : st.2.current_round ≤ 10) :
    (play_round st c1 c2).2.2.current_round ≤ 10 := by
  unfold play_round
  dsimp only
  by_cases hA : (!st.2.game_active) = true
  · rw [if_pos hA]
    exact h
  · rw [if_neg hA]
    by_cases hR : st.2.current_round ≥ 10
    · rw [if_pos hR]
      exact h
    · rw [if_neg hR]
      cases hm1 : parseMove (pyLower c1) with
      | none => exact h
      | some m1 =>
        cases hm2 : parseMove (pyLower c2) with
        | none => exact h
        | some m2 =>
          dsimp only
          by_cases h10 : st.2.current_round + 1 ≥ 10
          · rw [if_pos h10]
            show st.2.current_round + 1 ≤ 10
            omega
          · rw [if_neg h10]
            show st.2.current_round + 1 ≤ 10
            omega

lemma run_rounds_round_le (cs : List (String × String)) :
    ∀ st : ServerState, st.2.current_round ≤ 10 →
      (run_rounds st cs).2.2.current_round ≤ 10 := by
  induction cs with
  | nil => exact fun _ h => h
  | cons c cs ih =>
    intro st h
    obtain ⟨c1, c2⟩ := c
    exact ih _ (play_round_round_le st c1 c2 h)

lemma run_rounds_active (cs : List (String × String)) :
    ∀ st : ServerState, st.2.game_active = true →
      st.2.current_round + cs.length ≤ 10 →
      (∀ pr ∈ cs, (parseMove (pyLower pr.1)).isSome ∧ (parseMove (pyLower pr.2)).isSome) →
      (run_rounds st cs).1 = true
      ∧ (run_rounds st cs).2.2.current_round = st.2.current_round + cs.length
      ∧ (cs = [] ∨
          (run_rounds st cs).2.2.game_active =
            decide (st.2.current_round + cs.length < 10)) := by
  induction cs with
  | nil => exact fun st hA _ _ => ⟨rfl, by simp [run_rounds], Or.inl rfl⟩
  | cons c csTail ih =>
    intro st hA hle hv
    obtain ⟨c1, c2⟩ := c
    obtain ⟨m1, hm1⟩ := Option.isSome_iff_exists.mp (hv (c1, c2) (List.mem_cons_self _ _)).1
    obtain ⟨m2, hm2⟩ := Option.isSome_iff_exists.mp (hv (c1, c2) (List.mem_cons_self _ _)).2
    have hR : st.2.current_round < 10 := by
      simp only [List.length_cons] at hle
      omega
    obtain ⟨hok, hround, hactive⟩ := play_round_step st c1 c2 m1 m2 hA hR hm1 hm2
    have hfirst :
        (run_rounds st ((c1, c2) :: csTail)).1 =
          ((match (play_round st c1 c2).1 with
            | .ok _ => true
            | .error _ => false) && (run_rounds (play_round st c1 c2).2 csTail).1) := rfl
    have hrest :
        (run_rounds st ((c1, c2) :: csTail)).2 =
          (run_rounds (play_round st c1 c2).2 csTail).2 := rfl
    cases csTail with
    | nil =>
      refine ⟨?_, ?_, Or.inr ?_⟩
      · rw [hfirst, hok]
        rfl
      · rw [hrest]
        simpa using hround
      · rw [hrest]
        simpa using hactive
    | cons d ds =>
      have hA1 : (play_round st c1 c2).2.2.game_active = true := by
        rw [hactive]
        simp only [List.length_cons] at hle
        simp only [decide_eq_true_eq]
        omega
      have hle1 : (play_round st c1 c2).2.2.current_round + (d :: ds).length ≤ 10 := by
        rw [hround]
        simp only [List.length_cons] at hle ⊢
        omega
      obtain ⟨rok, rround, ractive⟩ :=
        ih (play_round st c1 c2).2 hA1 hle1
          (fun pr hm => hv pr (List.mem_cons_of_mem _ hm))
      refine ⟨?_, ?_, Or.inr ?_⟩
      · rw [hfirst, hok, rok]
        rfl
      · rw [hrest, rround, hround]
        simp only [List.length_cons]
        omega
      · rcases ractive with hempty | ract
        · exact absurd hempty (by simp)
        · rw [hrest, ract, hround]
          have hq :
              (st.2.current_round + 1 + (d :: ds).length < 10)
                ↔ (st.2.current_round + ((c1, c2) :: d :: ds).length < 10) := by
            simp only [List.length_cons]
            omega
          exact decide_eq_decide.mpr hq

lemma start_game_ok_state (st : ServerState) (r1 r2 : String) (st' : ServerState)
    (h : start_game st r1 r2 = (.ok (), st')) :
    st'.2.game_active = true ∧ st'.2.current_round = 0 ∧ st'.1 = st.1 := by
  unfold start_game at h
  dsimp only at h
  by_cases h1 : ((pyStrip r1).isEmpty || (pyStrip r2).isEmpty) = true
  · rw [if_pos h1] at h
    simp at h
  · rw [if_neg h1] at h
    cases hA : get_player_by_id st.1 (pyStrip r1) with
    | none =>
      rw [hA] at h
      simp at h
    | some p1 =>
      cases hB : get_player_by_id st.1 (pyStrip r2) with
      | none =>
        rw [hA, hB] at h
        simp at h
      | some p2 =>
        rw [hA, hB] at h
        injection h with hresp hstate
        subst hstate
        exact ⟨rfl, rfl, rfl⟩

/-- Claim C5: from a successfully started game, ten successful playRound
calls leave the session with active = false and currentRound = 10; any
further playRound call is rejected as a state error with the whole state
unchanged, and no run of playRound calls ever drives currentRound past 10. -/
theorem C5_ten_round_limit (st : ServerState) (r1 r2 : String) (st0 : ServerState)
    (h0 : start_game st r1 r2 = (.ok (), st0))
    (cs : List (String × String)) (hlen : cs.length = 10)
    (hv : ∀ pr ∈ cs, (parseMove (pyLower pr.1)).isSome ∧ (parseMove (pyLower pr.2)).isSome) :
    (run_rounds st0 cs).1 = true
    ∧ (run_rounds st0 cs).2.2.game_active = false
    ∧ (run_rounds st0 cs).2.2.current_round = 10
    ∧ (∀ d1 d2 : String,
        play_round (run_rounds st0 cs).2 d1 d2 =
          (.error "No active game", (run_rounds st0 cs).2))
    ∧ (∀ ds : List (String × String), (run_rounds st0 ds).2.2.current_round ≤ 10) := by
  obtain ⟨hA, hR0, -⟩ := start_game_ok_state st r1 r2 st0 h0
  obtain ⟨hok, hround, hactive⟩ :=
    run_rounds_active cs st0 hA (by rw [hR0, hlen]) hv
  have hcs : cs ≠ [] := by
    intro hh
    rw [hh] at hlen
    simp at hlen
  rcases hactive with h | hact
  · exact absurd h hcs
  have hactF : (run_rounds st0 cs).2.2.game_active = false := by
    rw [hact, hR0, hlen]
    simp
  refine ⟨hok, hactF, by rw [hround, hR0, hlen], ?_, ?_⟩
  · exact fun d1 d2 => play_round_inactive _ d1 d2 hactF
  · exact fun ds => run_rounds_round_le ds st0 (by omega)

theorem C5_witness :
    (run_rounds C5st0 C5cs).1 = true
    ∧ (run_rounds C5st0 C5cs).2.2.game_active = false
    ∧ (run_rounds C5st0 C5cs).2.2.current_round = 10 :=
  have h :=
    C5_ten_round_limit (C5lb, initGameState) "a" "b" C5st0 (by rfl) C5cs (by decide)
      (by decide)
  ⟨h.1, h.2.1, h.2.2.1⟩

lemma leChars_refl (l : List Char) : leChars l l = true := by
  induction l with
  | nil => rfl
  | cons a as ih => simp [leChars, ih]

lemma leChars_total (a : List Char) : ∀ b, leChars a b = true ∨ leChars b a = true := by
  induction a with
  | nil => exact fun _ => Or.inl rfl
  | cons x xs ih =>
    intro b
    cases b with
    | nil => exact Or.inr rfl
    | cons y ys =>
      by_cases h1 : x.toNat < y.toNat
      · left
        simp [leChars, h1]
      · by_cases h2 : y.toNat < x.toNat
        · right
          simp [leChars, h2]
        · rcases ih ys with h | h
          · left
            simp [leChars, h1, h2, h]
          · right
            simp [leChars, h1, h2, h]

lemma leChars_trans (a : List Char) :
    ∀ b c, leChars a b = true → leChars b c = true → leChars a c = true := by
  induction a with
  | nil => exact fun _ _ _ _ => rfl
  | cons x xs ih =>
    intro b c hab hbc
    cases b with
    | nil => simp [leChars] at hab
    | cons y ys =>
      cases c with
      | nil => simp [leChars] at hbc
      | cons z zs =>
        by_cases h1 : x.toNat < y.toNat
        · by_cases h2 : y.toNat < z.toNat
          · simp [leChars, show x.toNat < z.toNat by omega]
          · by_cases h2' : z.toNat < y.toNat
            · simp [leChars, h2, h2'] at hbc
            · simp [leChars, show x.toNat < z.toNat by omega]
        · by_cases h1' : y.toNat < x.toNat
          · simp [leChars, h1, h1'] at hab
          · by_cases h2 : y.toNat < z.toNat
            · simp [leChars, show x.toNat < z.toNat by omega]
            · by_cases h2' : z.toNat < y.toNat
              · simp [leChars, h2, h2'] at hbc
              · have hab' : leChars xs ys = true := by simpa [leChars, h1, h1'] using hab
                have hbc' : leChars ys zs = true := by simpa [leChars, h2, h2'] using hbc
                simp [leChars, show ¬ x.toNat < z.toNat by omega,
                  show ¬ z.toNat < x.toNat by omega, ih ys zs hab' hbc']

lemma nameLe_total (a b : LBEntry) : nameLe a b = true ∨ nameLe b a = true :=
  leChars_total _ _

lemma nameLe_trans (a b c : LBEntry) (hab : nameLe a b = true) (hbc : nameLe b c = true) :
    nameLe a c = true :=
  leChars_trans _ _ _ hab hbc

lemma nameLe_of_key_eq (a b : LBEntry) (h : pyLower a.name = pyLower b.name) :
    nameLe a b = true := by
  unfold nameLe strLeB
  rw [h]
  exact leChars_refl _

lemma scoreLe_shape (a b : LBEntry) (h : scoreLe a b = true) :
    b.score < a.score
    ∨ (a.score = b.score ∧ strLeB (pyLower a.name) (pyLower b.name) = true) := by
  by_cases h1 : b.score < a.score
  · exact Or.inl h1
  · by_cases h2 : a.score < b.score
    · simp [scoreLe, h1, h2] at h
    · exact Or.inr ⟨by omega, by simpa [scoreLe, h1, h2] using h⟩

lemma scoreLe_total (a b : LBEntry) : scoreLe a b = true ∨ scoreLe b a = true := by
  by_cases h1 : b.score < a.score
  · left
    simp [scoreLe, h1]
  · by_cases h2 : a.score < b.score
    · right
      simp [scoreLe, h2]
    · rcases leChars_total (pyLower a.name).data (pyLower b.name).data with h | h
      · left
        simp [scoreLe, h1, h2, strLeB, h]
      · right
        simp [scoreLe, h1, h2, strLeB, h]

lemma scoreLe_trans (a b c : LBEntry) (hab : scoreLe a b = true)
    (hbc : scoreLe b c = true) : scoreLe a c = true := by
  rcases scoreLe_shape a b hab with h | ⟨he, hs⟩ <;>
    rcases scoreLe_shape b c hbc with h' | ⟨he', hs'⟩
  · simp [scoreLe, show c.score < a.score by omega]
  · simp [scoreLe, show c.score < a.score by omega]
  · simp [scoreLe, show c.score < a.score by omega]
  · have hn1 : ¬ c.score < a.score := by omega
    have hn2 : ¬ a.score < c.score := by omega
    unfold strLeB at hs hs'
    simp [scoreLe, hn1, hn2, strLeB, leChars_trans _ _ _ hs hs']

lemma mem_sInsert {α : Type} (le : α → α → Bool) (x y : α) (l : List α) :
    y ∈ sInsert le x l ↔ y = x ∨ y ∈ l := by
  induction l with
  | nil => simp [sInsert]
  | cons z zs ih =>
    by_cases h : le x z = true
    · simp only [sInsert, if_pos h]
      simp
    · simp only [sInsert, if_neg h]
      simp [ih]
      tauto

lemma sInsert_perm {α : Type} (le : α → α → Bool) (x : α) (l : List α) :
    (sInsert le x l).Perm (x :: l) := by
  induction l with
  | nil => exact List.Perm.refl _
  | cons z zs ih =>
    by_cases h : le x z = true
    · simp only [sInsert, if_pos h]
      exact List.Perm.refl _
    · simp only [sInsert, if_neg h]
      exact (ih.cons z).trans (List.Perm.swap x z zs)

lemma stableSort_perm {α : Type} (le : α → α → Bool) (l : List α) :
    (stableSort le l).Perm l := by
  induction l with
  | nil => exact List.Perm.refl _
  | cons x xs ih => exact (sInsert_perm le x (stableSort le xs)).trans (ih.cons x)

lemma pairwise_sInsert {α : Type} (le : α → α → Bool)
    (htot : ∀ a b, le a b = true ∨ le b a = true)
    (htrans : ∀ a b c, le a b = true → le b c = true → le a c = true)
    (x : α) (l : List α) (hl : l.Pairwise (fun a b => le a b = true)) :
    (sInsert le x l).Pairwise (fun a b => le a b = true) := by
  induction l with
  | nil => simp [sInsert]
  | cons z zs ih =>
    rw [List.pairwise_cons] at hl
    obtain ⟨hz, hzs⟩ := hl
    by_cases h : le x z = true
    · simp only [sInsert, if_pos h]
      refine List.Pairwise.cons ?_ (List.Pairwise.cons hz hzs)
      intro b hb
      rcases List.mem_cons.mp hb with hbz | hb
      · rw [hbz]
        exact h
      · exact htrans x z b h (hz b hb)
    · simp only [sInsert, if_neg h]
      refine List.Pairwise.cons ?_ (ih hzs)
      intro b hb
      rcases (mem_sInsert le x b zs).mp hb with hbx | hb
      · rw [hbx]
        rcases htot x z with hh | hh
        · exact absurd hh h
        · exact hh
      · exact hz b hb

lemma pairwise_stableSort {α : Type} (le : α → α → Bool)
    (htot : ∀ a b, le a b = true ∨ le b a = true)
    (htrans : ∀ a b c, le a b = true → le b c = true → le a c = true)
    (l : List α) : (stableSort le l).Pairwise (fun a b => le a b = true) := by
  induction l with
  | nil => simp [stableSort]
  | cons x xs ih => exact pairwise_sInsert le htot htrans x (stableSort le xs) ih

lemma filter_sInsert {α : Type} (le : α → α → Bool) (p : α → Bool) (x : α) (l : List α)
    (hp : ∀ b, p x = true → p b = true → le x b = true) :
    (sInsert le x l).filter p = if p x then x :: l.filter p else l.filter p := by
  induction l with
  | nil => simp [sInsert, List.filter_cons]
  | cons z zs ih =>
    by_cases h : le x z = true
    · simp only [sInsert, if_pos h]
      by_cases hx : p x = true <;> simp [List.filter_cons, hx]
    · simp only [sInsert, if_neg h]
      by_cases hx : p x = true
      · have hz : p z = false := by
          by_cases hzp : p z = true
          · exact absurd (hp z hx hzp) h
          · simpa using hzp
        simp [List.filter_cons, hz, hx, ih]
      · simp [List.filter_cons, hx, ih]

lemma filter_stableSort {α : Type} (le : α → α → Bool) (p : α → Bool)
    (hp : ∀ a b, p a = true → p b = true → le a b = true) (l : List α) :
    (stableSort le l).filter p = l.filter p := by
  induction l with
  | nil => rfl
  | cons x xs ih =>
    simp only [stableSort]
    rw [filter_sInsert le p x _ (fun b hx hb => hp x b hx hb)]
    by_cases hx : p x = true
    · simp [hx, ih, List.filter_cons]
    · simp [hx, ih, List.filter_cons]

/-- Claim C8: both leaderboard views are permutations of the player list,
the name view is sorted by lower-cased name and stable (elements of any one
name key keep their store order), the score view is sorted by descending
score with lower-cased name as tie-break, and on the example store with
A(3), b(3), C(5) the score view lists C, A, b. -/
theorem C8_leaderboard_views (lb : Leaderboard) :
    ((get_leaderboard lb).sorted_by_name).Perm (players_list lb)
    ∧ ((get_leaderboard lb).sorted_by_name).Pairwise (fun a b => nameLe a b = true)
    ∧ (∀ s : String,
        ((get_leaderboard lb).sorted_by_name).filter (fun e => pyLower e.name == s)
          = (players_list lb).filter (fun e => pyLower e.name == s))
    ∧ ((get_leaderboard lb).sorted_by_score).Perm (players_list lb)
    ∧ ((get_leaderboard lb).sorted_by_score).Pairwise (fun a b => scoreLe a b = true)
    ∧ ((get_leaderboard C8lb).sorted_by_score).map (fun e => e.name) = ["C", "A", "b"] := by
  refine ⟨stableSort_perm _ _,
    pairwise_stableSort _ nameLe_total nameLe_trans _, ?_,
    stableSort_perm _ _,
    pairwise_stableSort _ scoreLe_total scoreLe_trans _, by decide⟩
  intro s
  apply filter_stableSort
  intro a b ha hb
  have ha' : pyLower a.name = s := by simpa using ha
  have hb' : pyLower b.name = s := by simpa using hb
  exact nameLe_of_key_eq a b (by rw [ha', hb'])
